import Mathlib

/-!
Shallow embedding of the signal engine of `src/app.py` (a Streamlit
oscilloscope app): the waveform generator `generate_signal`, the modulator
`modulate_signal`, the demodulator `demodulate_signal`, the per-channel
rendering loop of `main`, and the Freeze/Run/Reset display loop.

Sample buffers are `List ℝ`.  NumPy elementwise arithmetic on equal-length
arrays becomes `List.map` / `List.zipWith`; `np.zeros_like(t)` becomes
`List.replicate t.length 0`.  Python's ambient randomness
(`np.random.random()`) is modelled by an explicit stream `rand : ℕ → ℝ`
passed to the generator.
-/

open scoped Classical

set_option maxRecDepth 8000
set_option maxHeartbeats 1000000

noncomputable section

/-- np.mod(x, 2π): x - 2π·⌊x/(2π)⌋ (NumPy mod with a positive modulus). -/
def npMod2pi (x : ℝ) : ℝ := x - 2 * Real.pi * (↑(Int.floor (x / (2 * Real.pi))) : ℝ)

/-- scipy.signal.square(x, duty): 1 on the first `duty` fraction of each
2π-period, -1 on the rest. -/
def sqWave (duty : ℝ) (x : ℝ) : ℝ :=
  if npMod2pi x < duty * (2 * Real.pi) then 1 else -1

/-- scipy.signal.sawtooth(x, width): rises -1→1 over the first `width`
fraction of each 2π-period, falls back over the rest. -/
def sawtoothW (width : ℝ) (x : ℝ) : ℝ :=
  let tm := npMod2pi x
  if tm < width * (2 * Real.pi) then tm / (Real.pi * width) - 1
  else (Real.pi * (width + 1) - tm) / (Real.pi * (1 - width))

/-- np.sign: 1 for positive, -1 for negative, 0 for zero. -/
def npSign (x : ℝ) : ℝ := if x > 0 then 1 else if x < 0 then -1 else 0

/-- np.angle(s + 1j*s): the argument of the complex number s + i·s,
exactly the expression used at src/app.py line 80. -/
def npAngleDiag (s : ℝ) : ℝ := Complex.arg (s + s * Complex.I)

/-- Helper for `cumsum`: running sums with accumulator `acc`. -/
def cumsumAux (acc : ℝ) : List ℝ → List ℝ
  | [] => []
  | x :: xs => (acc + x) :: cumsumAux (acc + x) xs

/-- np.cumsum: prefix sums. -/
def cumsum (l : List ℝ) : List ℝ := cumsumAux 0 l

/-- np.diff: successive differences, one element shorter than the input. -/
def diff (l : List ℝ) : List ℝ := List.zipWith (fun a b => b - a) l l.tail

/-- Helper for `npGradient`: central differences over the interior, one-sided
at the right edge.  `p, q` are the previous two samples already consumed. -/
def gradAux (p q : ℝ) : List ℝ → List ℝ
  | [] => [q - p]
  | r :: rest => ((r - p) / 2) :: gradAux q r rest

/-- np.gradient on a 1-D array of length ≥ 2: one-sided difference at each
edge, central difference `(a[i+1]-a[i-1])/2` in the interior; output length
equals input length.  NumPy raises for arrays of fewer than 2 samples; those
out-of-domain inputs are mapped to `[]` and every theorem that touches them
carries a length hypothesis. -/
def npGradient : List ℝ → List ℝ
  | [] => []
  | [_] => []
  | a :: b :: rest => (b - a) :: gradAux a b rest

/-- One step of np.unwrap's phase correction (discont = π, period = 2π):
`ddmod = mod(dd + π, 2π) - π`, bumped to π when it equals -π with `dd > 0`;
the correction `ddmod - dd` is zeroed whenever `|dd| < π`. -/
def phaseCorrect (dd : ℝ) : ℝ :=
  let ddmod0 := npMod2pi (dd + Real.pi) - Real.pi
  let ddmod := if ddmod0 = -Real.pi ∧ dd > 0 then Real.pi else ddmod0
  if |dd| < Real.pi then 0 else ddmod - dd

/-- np.unwrap: the first sample unchanged, every later sample shifted by the
running sum of the per-step phase corrections. -/
def unwrap (p : List ℝ) : List ℝ :=
  match p with
  | [] => []
  | p0 :: rest => p0 :: List.zipWith (· + ·) rest (cumsum ((diff p).map phaseCorrect))

/-- np.linspace(start, stop, num): `num` equally spaced samples from `start`
to `stop` inclusive. -/
def linspace (start stop : ℝ) (num : ℕ) : List ℝ :=
  (List.range num).map (fun (i : ℕ) => start + (stop - start) * (i : ℝ) / ((num : ℝ) - 1))

/-- src/app.py lines 40-53, `generate_signal(signal_type, t, amplitude,
frequency, offset, duty)`.  The "Binary Data" branch draws one
`np.random.random()` per sample; the draw stream is the explicit `rand`
argument.  Every unrecognized tag falls through to `np.zeros_like(t)`. -/
def generate_signal (rand : ℕ → ℝ) (signal_type : String) (t : List ℝ)
    (amplitude frequency offset duty : ℝ) : List ℝ :=
  if signal_type = "Sine Wave" then
    t.map (fun ti => amplitude * Real.sin (2 * Real.pi * frequency * ti) + offset)
  else if signal_type = "Square Wave" then
    t.map (fun ti => amplitude * sqWave 0.5 (2 * Real.pi * frequency * ti) + offset)
  else if signal_type = "Triangle Wave" then
    t.map (fun ti => amplitude * sawtoothW 0.5 (2 * Real.pi * frequency * ti) + offset)
  else if signal_type = "Clock Pulse" then
    t.map (fun ti => amplitude * sqWave duty (2 * Real.pi * frequency * ti) + offset)
  else if signal_type = "Binary Data" then
    (List.range t.length).map
      (fun i => amplitude * (if rand i > 0.5 then 1 else 0) + offset)
  else if signal_type = "Carrier Wave" then
    t.map (fun ti => amplitude * Real.sin (2 * Real.pi * frequency * ti) + offset)
  else
    List.replicate t.length 0

/-- src/app.py lines 56-73, `modulate_signal(carrier_freq, message_signal,
t, mod_type, mod_index)`.  `t[1] - t[0]` in the FM branch is embedded with
`List.getD` (NumPy would raise IndexError on an axis shorter than 2 samples;
no claim evaluates FM there).  Unrecognized schemes fall through to
`np.zeros_like(t)`. -/
def modulate_signal (carrier_freq : ℝ) (message_signal : List ℝ) (t : List ℝ)
    (mod_type : String) (mod_index : ℝ) : List ℝ :=
  let carrier := t.map (fun ti => Real.sin (2 * Real.pi * carrier_freq * ti))
  if mod_type = "AM" then
    List.zipWith (fun mi ci => (1 + mod_index * mi) * ci) message_signal carrier
  else if mod_type = "FM" then
    let dt := t.getD 1 0 - t.getD 0 0
    let integrated_signal := (cumsum message_signal).map (fun x => x * dt)
    List.zipWith
      (fun ti ii => Real.sin (2 * Real.pi * carrier_freq * ti + mod_index * ii))
      t integrated_signal
  else if mod_type = "PM" then
    List.zipWith
      (fun ti mi => Real.sin (2 * Real.pi * carrier_freq * ti + mod_index * mi))
      t message_signal
  else if mod_type = "ASK" then
    List.zipWith (fun ci mi => ci * ((if mi > 0 then (1 : ℝ) else 0) * 0.5 + 0.5))
      carrier message_signal
  else if mod_type = "FSK" then
    List.zipWith
      (fun mi ti => if mi > 0 then Real.sin (2 * Real.pi * carrier_freq * 1.5 * ti)
                    else Real.sin (2 * Real.pi * carrier_freq * ti))
      message_signal t
  else if mod_type = "PSK" then
    List.zipWith (fun ci mi => ci * npSign mi) carrier message_signal
  else
    List.replicate t.length 0

/-- src/app.py lines 76-85, `demodulate_signal(signal, mod_type)`.  The
ASK/PSK/FSK branches produce NumPy boolean arrays (resp. their float casts);
booleans are embedded by the numeric value 1/0 they take in the later
arithmetic `amplitude * signal + offset` of `main`.  Unrecognized schemes fall
through to `np.zeros_like(signal)`. -/
def demodulate_signal (sig : List ℝ) (mod_type : String) : List ℝ :=
  if mod_type = "AM" then
    sig.map (fun x => |x|)
  else if mod_type = "FM" ∨ mod_type = "PM" then
    npGradient (unwrap (sig.map npAngleDiag))
  else if mod_type = "ASK" then
    sig.map (fun x => if x > 0.1 then (1 : ℝ) else 0)
  else if mod_type = "PSK" ∨ mod_type = "FSK" then
    sig.map (fun x => if x > 0 then (1 : ℝ) else 0)
  else
    List.replicate sig.length 0

/-- Does `nd` occur as a prefix of `hy`?  (Char lists, Bool-valued.) -/
def startsList (nd hy : List Char) : Bool :=
  match nd, hy with
  | [], _ => true
  | _ :: _, [] => false
  | a :: as, b :: bs => (a == b) && startsList as bs

/-- Does `nd` occur as a contiguous run somewhere inside `hy`? -/
def containsList (nd : List Char) : List Char → Bool
  | [] => nd.isEmpty
  | c :: rest => startsList nd (c :: rest) || containsList nd rest

/-- Python's `needle in haystack` substring test. -/
def strContains (hay needle : String) : Bool := containsList needle.data hay.data

/-- Python's `s.split()[0]`: the text before the first space (the option
strings of the app are single-space separated). -/
def firstWord (s : String) : String := (s.splitOn " ").headD ""

/-- The 8-tuple returned by `channel_controls` (src/app.py lines 109-163):
`(enabled, signal_type, amplitude, frequency, offset, duty, mod_type,
mod_index)`.  Entries that are Python `None` on some tab are `Option`s. -/
structure ChannelParams where
  enabled : Bool
  signal_type : String
  amplitude : ℝ
  frequency : Option ℝ
  offset : ℝ
  duty : Option ℝ
  mod_type : Option String
  mod_index : Option ℝ

/-- Models `"Basic" in str(channel_params)` (src/app.py line 198): the repr
of the tuple can contain the letters "Basic" only through its two string
fields (the rest are a bool and numbers/None). -/
def paramsContainBasic (ch : ChannelParams) : Bool :=
  strContains ch.signal_type "Basic" ||
    (match ch.mod_type with
     | some m => strContains m "Basic"
     | none => false)

/-- src/app.py lines 188-222: the per-channel body of the render loop of
`main`.  Returns `(samples, displayName, visible)`.  A Python `None` fed to
an arithmetic branch would be a TypeError; those positions are embedded with
`Option.getD` defaults and are unreachable for the option strings the app
actually produces.  `None` as `mod_type` is embedded as `""`, which matches
no scheme, exactly as `None == "AM"` is false. -/
def renderChannel (rand : ℕ → ℝ) (carrier_freq : ℝ)
    (message_signal carrier_signal : List ℝ) (t : List ℝ)
    (ch : ChannelParams) (i : ℕ) : List ℝ × String × Bool :=
  if ch.enabled = false then
    (List.replicate t.length 0, "CH" ++ toString (i + 1) ++ ": Disabled", false)
  else
    let s :=
      if paramsContainBasic ch then
        if ch.signal_type = "Message Signal" then
          message_signal.map (fun x => x * ch.amplitude + ch.offset)
        else if ch.signal_type = "Clock Pulse" then
          generate_signal rand "Clock Pulse" t ch.amplitude (ch.frequency.getD 0)
            ch.offset (ch.duty.getD 0)
        else if ch.signal_type = "Carrier Wave" then
          carrier_signal.map (fun x => x * ch.amplitude + ch.offset)
        else
          List.replicate t.length 0
      else if strContains ch.signal_type "Modulated" then
        let m := modulate_signal carrier_freq message_signal t
          (ch.mod_type.getD "") (ch.mod_index.getD 1)
        m.map (fun x => ch.amplitude * x + ch.offset)
      else if strContains ch.signal_type "Demodulated" then
        let mt := firstWord ch.signal_type
        let modulated := modulate_signal carrier_freq message_signal t mt 1.0
        let d := demodulate_signal modulated mt
        d.map (fun x => ch.amplitude * x + ch.offset)
      else
        List.replicate t.length 0
    (s, "CH" ++ toString (i + 1) ++ ": " ++ ch.signal_type, true)

/-- The AM demodulation claim C5 describes: the envelope (absolute value)
with its DC component (the envelope mean) removed. -/
def amDemodSpec (l : List ℝ) : List ℝ :=
  let env := l.map (fun x => |x|)
  env.map (fun e => e - env.sum / (env.length : ℝ))

/-- The FM modulation claim C3 describes: carrier phase 2π·fc·t plus the
phase term 2π·index·∫message, the integral being the Δt-scaled cumulative
sum of the message. -/
def fmClaimFormula (carrier_freq : ℝ) (message_signal t : List ℝ)
    (mod_index : ℝ) : List ℝ :=
  let dt := t.getD 1 0 - t.getD 0 0
  List.zipWith
    (fun ti ii =>
      Real.sin (2 * Real.pi * carrier_freq * ti + 2 * Real.pi * mod_index * ii))
    t ((cumsum message_signal).map (fun x => x * dt))

/-- The FM modulation the code implements, written independently of the
code's combinators: sample i is the carrier sine at phase
2π·fc·t[i] + index·((Σ_{j ≤ i} message[j])·Δt) — the index multiplies the
integral directly, with no extra 2π factor. -/
def fmAmendedFormula (carrier_freq : ℝ) (message_signal t : List ℝ)
    (mod_index : ℝ) : List ℝ :=
  (List.range (min t.length message_signal.length)).map
    (fun (i : ℕ) =>
      Real.sin (2 * Real.pi * carrier_freq * (t.getD i 0) +
        mod_index * ((message_signal.take (i + 1)).sum * (t.getD 1 0 - t.getD 0 0))))

/-- src/app.py line 168: the fixed time axis `t = np.linspace(0, 10, 10000)`
rebuilt identically on every script run. -/
def t_main : List ℝ := linspace 0 10 10000

/-- The persistent display state: `st.session_state['frozen']`
(src/app.py lines 227-228). -/
structure SessionState where
  frozen : Bool

/-- One iteration of the display loop `while not st.session_state['frozen']`
(src/app.py lines 229-231): while frozen, no new frame is drawn (the loop
body never runs, so the last frame stays on screen); while not frozen, each
iteration redraws the same figure built from the fixed axis `t_main` and the
signal buffers computed once before the loop.  A frame is represented by its
time axis. -/
def loopTick (s : SessionState) : Option (List ℝ) :=
  if s.frozen then none else some t_main

/-- The Freeze button (src/app.py lines 235-236): sets `frozen := True`. -/
def freezeAction (_ : SessionState) : SessionState := ⟨true⟩

/-- The Run button (src/app.py lines 238-239): sets `frozen := False`. -/
def runAction (_ : SessionState) : SessionState := ⟨false⟩

/-- The Reset button (src/app.py lines 241-242): `st.experimental_rerun()`
re-executes the script; `st.session_state` (hence `frozen`) persists, and the
time axis is rebuilt as the same fixed `t_main`. -/
def resetAction (s : SessionState) : SessionState := s

end

/-! Helper lemmas about the list combinators of the embedding. -/

theorem cumsumAux_length (acc : ℝ) (l : List ℝ) :
    (cumsumAux acc l).length = l.length := by
  induction l generalizing acc with
  | nil => rfl
  | cons x xs ih => simp [cumsumAux, ih]

theorem cumsum_length (l : List ℝ) : (cumsum l).length = l.length :=
  cumsumAux_length 0 l

theorem diff_length (l : List ℝ) : (diff l).length = l.length - 1 := by
  cases l with
  | nil => rfl
  | cons x xs => simp [diff, List.length_zipWith]

theorem unwrap_length (p : List ℝ) : (unwrap p).length = p.length := by
  cases p with
  | nil => rfl
  | cons p0 rest =>
    simp [unwrap, List.length_zipWith, cumsum_length, diff_length]

theorem gradAux_length (rest : List ℝ) :
    ∀ p q : ℝ, (gradAux p q rest).length = rest.length + 1 := by
  induction rest with
  | nil => intro p q; rfl
  | cons r rs ih => intro p q; simp [gradAux, ih]

theorem npGradient_length (l : List ℝ) (h : 2 ≤ l.length) :
    (npGradient l).length = l.length := by
  match l with
  | [] => simp at h
  | [_] => simp at h
  | a :: b :: rest => simp [npGradient, gradAux_length]

theorem cumsumAux_getD (l : List ℝ) :
    ∀ (acc : ℝ) (i : ℕ), i < l.length →
      (cumsumAux acc l).getD i 0 = acc + (l.take (i + 1)).sum := by
  induction l with
  | nil => intro acc i h; simp at h
  | cons x xs ih =>
    intro acc i h
    cases i with
    | zero => simp [cumsumAux]
    | succ n =>
      have hn : n < xs.length := by simpa using h
      simp only [cumsumAux, List.getD_cons_succ, List.take_succ_cons, List.sum_cons]
      rw [ih (acc + x) n hn]
      ring

theorem cumsum_getD (l : List ℝ) (i : ℕ) (h : i < l.length) :
    (cumsum l).getD i 0 = (l.take (i + 1)).sum := by
  simpa using cumsumAux_getD l 0 i h

theorem npSign_zero : npSign 0 = 0 := by
  simp [npSign]

theorem linspace_length (s e : ℝ) (n : ℕ) : (linspace s e n).length = n := by
  rw [linspace, List.length_map, List.length_range]

/-! Claim theorems. -/

/-- C1, counterexample: `generate_signal` has no CustomBinary branch, so on
the 1-second 1000-sample axis a "CustomBinary" tag yields 1000 zeros; in
particular sample 0 is 0, not the amplitude 1 the first claimed plateau
requires. -/
theorem c1_counterexample :
    generate_signal (fun _ => 0) "CustomBinary" (linspace 0 1 1000) 1 1 0 0.5
        = List.replicate (linspace 0 1 1000).length 0 ∧
    (linspace 0 1 1000).length = 1000 ∧ (0 : ℝ) ≠ 1 := by
  refine ⟨by simp [generate_signal], linspace_length 0 1 1000, by norm_num⟩

/-- C1, amended: the waveform generator does not support a CustomBinary kind;
a "CustomBinary" tag takes the unknown-kind fallback and returns an all-zero
buffer whose length equals the time-axis length. -/
theorem c1_amended_zero_fallback (rand : ℕ → ℝ) (t : List ℝ) (a f o d : ℝ) :
    generate_signal rand "CustomBinary" t a f o d = List.replicate t.length 0 ∧
    (generate_signal rand "CustomBinary" t a f o d).length = t.length := by
  constructor <;> simp [generate_signal]

/-- C4, counterexample: on input `[5]` with unrecognized scheme "XYZ" the
demodulator returns `[0]`, not the input unchanged. -/
theorem c4_counterexample : demodulate_signal [5] "XYZ" ≠ [5] := by
  intro h
  simp [demodulate_signal] at h

/-- C4, amended: for every input buffer and every scheme tag that is not one
of the recognized modulation schemes, demodulate returns an all-zero buffer of
the input's length (defined fallback, not an error and not the input). -/
theorem c4_amended_zero_fallback (l : List ℝ) (tag : String)
    (h1 : tag ≠ "AM") (h2 : tag ≠ "FM") (h3 : tag ≠ "PM")
    (h4 : tag ≠ "ASK") (h5 : tag ≠ "PSK") (h6 : tag ≠ "FSK") :
    demodulate_signal l tag = List.replicate l.length 0 := by
  simp [demodulate_signal, h1, h2, h3, h4, h5, h6]

/-- C4, witness for the amended theorem at `l = [5]`, `tag = "XYZ"`. -/
theorem c4_amended_zero_fallback_witness :
    ("XYZ" ≠ "AM") ∧ ("XYZ" ≠ "FM") ∧ ("XYZ" ≠ "PM") ∧ ("XYZ" ≠ "ASK") ∧
      ("XYZ" ≠ "PSK") ∧ ("XYZ" ≠ "FSK") ∧
      demodulate_signal [5] "XYZ" = List.replicate (List.length [(5 : ℝ)]) 0 :=
  ⟨by decide, by decide, by decide, by decide, by decide, by decide,
    c4_amended_zero_fallback [5] "XYZ" (by decide) (by decide) (by decide)
      (by decide) (by decide) (by decide)⟩

/-- C5, counterexample: on input `[2]` AM demodulation returns the bare
envelope `[2]`, while envelope-minus-mean would be `[0]`: no DC removal is
performed. -/
theorem c5_counterexample : demodulate_signal [2] "AM" ≠ amDemodSpec [2] := by
  intro h
  simp [demodulate_signal, amDemodSpec] at h

/-- C5, amended: AM demodulation computes only the absolute-value envelope,
sample for sample; the DC component is not removed. -/
theorem c5_amended_abs_only (l : List ℝ) :
    (demodulate_signal l "AM").length = l.length ∧
    ∀ i : ℕ, (demodulate_signal l "AM").getD i 0 = |l.getD i 0| := by
  constructor
  · simp [demodulate_signal]
  · intro i
    simp only [demodulate_signal, reduceIte]
    rcases lt_or_ge i l.length with h | h
    · rw [List.getD_eq_getElem _ _ (by simpa using h), List.getD_eq_getElem _ _ h,
        List.getElem_map]
    · rw [List.getD_eq_default _ _ (by simpa using h), List.getD_eq_default _ _ h]
      simp

/-- C6: for every kind/scheme tag outside the supported sets, both the
generator and the modulator return an all-zero buffer of the time-axis
length (total functions, no error path). -/
theorem c6_total_zero_fallback (rand : ℕ → ℝ) (tag : String) (t msg : List ℝ)
    (a f o d fc idx : ℝ)
    (hg1 : tag ≠ "Sine Wave") (hg2 : tag ≠ "Square Wave")
    (hg3 : tag ≠ "Triangle Wave") (hg4 : tag ≠ "Clock Pulse")
    (hg5 : tag ≠ "Binary Data") (hg6 : tag ≠ "Carrier Wave")
    (hm1 : tag ≠ "AM") (hm2 : tag ≠ "FM") (hm3 : tag ≠ "PM")
    (hm4 : tag ≠ "ASK") (hm5 : tag ≠ "FSK") (hm6 : tag ≠ "PSK") :
    generate_signal rand tag t a f o d = List.replicate t.length 0 ∧
    modulate_signal fc msg t tag idx = List.replicate t.length 0 := by
  constructor
  · simp [generate_signal, hg1, hg2, hg3, hg4, hg5, hg6]
  · simp [modulate_signal, hm1, hm2, hm3, hm4, hm5, hm6]

/-- C6, witness at the unsupported tag "Noise" on a 1-sample axis. -/
theorem c6_total_zero_fallback_witness :
    ("Noise" ≠ "Sine Wave") ∧ ("Noise" ≠ "Square Wave") ∧
      ("Noise" ≠ "Triangle Wave") ∧ ("Noise" ≠ "Clock Pulse") ∧
      ("Noise" ≠ "Binary Data") ∧ ("Noise" ≠ "Carrier Wave") ∧
      ("Noise" ≠ "AM") ∧ ("Noise" ≠ "FM") ∧ ("Noise" ≠ "PM") ∧
      ("Noise" ≠ "ASK") ∧ ("Noise" ≠ "FSK") ∧ ("Noise" ≠ "PSK") ∧
      (generate_signal (fun _ => 0) "Noise" [0] 1 1 0 0.5
          = List.replicate (List.length [(0 : ℝ)]) 0 ∧
        modulate_signal 1 [1] [0] "Noise" 1
          = List.replicate (List.length [(0 : ℝ)]) 0) :=
  ⟨by decide, by decide, by decide, by decide, by decide, by decide,
    by decide, by decide, by decide, by decide, by decide, by decide,
    c6_total_zero_fallback (fun _ => 0) "Noise" [0] [1] 1 1 0 0.5 1 1
      (by decide) (by decide) (by decide) (by decide) (by decide) (by decide)
      (by decide) (by decide) (by decide) (by decide) (by decide) (by decide)⟩

/-- C8: a disabled channel renders to an all-zero buffer of the time-axis
length, the "Disabled" display name, and `visible = false`, for every
kind/scheme tag and every parameter value (the disabled branch is taken
before any generator/modulator/demodulator call). -/
theorem c8_disabled_channel (rand : ℕ → ℝ) (fc : ℝ) (msg car t : List ℝ)
    (st : String) (a : ℝ) (fr : Option ℝ) (o : ℝ) (du : Option ℝ)
    (mt : Option String) (mi : Option ℝ) (i : ℕ) :
    renderChannel rand fc msg car t ⟨false, st, a, fr, o, du, mt, mi⟩ i =
      (List.replicate t.length 0, "CH" ++ toString (i + 1) ++ ": Disabled", false) := by
  simp [renderChannel]

/-- C9: the ASK, FSK and PSK branches never read the modulation index: two
calls that differ only in the index produce identical buffers (and the index
can be any real, there is no error path). -/
theorem c9_index_ignored (fc : ℝ) (msg t : List ℝ) (i1 i2 : ℝ) :
    modulate_signal fc msg t "ASK" i1 = modulate_signal fc msg t "ASK" i2 ∧
    modulate_signal fc msg t "FSK" i1 = modulate_signal fc msg t "FSK" i2 ∧
    modulate_signal fc msg t "PSK" i1 = modulate_signal fc msg t "PSK" i2 := by
  refine ⟨?_, ?_, ?_⟩ <;> simp [modulate_signal]

/-- C10: PSK keys the carrier by `np.sign(message)`, and `sign 0 = 0`, so at
every index where the message sample is exactly 0 the PSK output sample is 0
(neither the carrier nor its negation). -/
theorem c10_psk_zero_message (fc idx : ℝ) (msg t : List ℝ) (i : ℕ)
    (ht : i < t.length) (hm : i < msg.length) (h0 : msg.getD i 0 = 0) :
    (modulate_signal fc msg t "PSK" idx).getD i 0 = 0 := by
  have hlen : i < (modulate_signal fc msg t "PSK" idx).length := by
    simp [modulate_signal, List.length_zipWith]
    omega
  rw [List.getD_eq_getElem _ _ hlen]
  have hmi : msg[i] = 0 := by
    rw [← List.getD_eq_getElem msg 0 hm]
    exact h0
  simp [modulate_signal, List.getElem_zipWith, List.getElem_map, hmi, npSign_zero]

/-- C10, witness at `msg = t = [0]`, index 0. -/
theorem c10_psk_zero_message_witness :
    (0 < List.length [(0 : ℝ)]) ∧ (0 < List.length [(0 : ℝ)]) ∧
      ([(0 : ℝ)].getD 0 0 = 0) ∧
      (modulate_signal 1 [0] [0] "PSK" 1).getD 0 0 = 0 :=
  ⟨by simp, by simp, by simp,
    c10_psk_zero_message 1 1 [0] [0] 0 (by simp) (by simp) (by simp)⟩

theorem cumsum_getElem (l : List ℝ) (i : ℕ) {h : i < (cumsum l).length} :
    (cumsum l)[i] = (l.take (i + 1)).sum := by
  have h2 : i < l.length := by rwa [cumsum_length] at h
  rw [← List.getD_eq_getElem (cumsum l) 0 h, cumsum_getD l i h2]

theorem linspace_getD_zero (s e : ℝ) (n : ℕ) (h : 0 < n) :
    (linspace s e n).getD 0 0 = s := by
  cases n with
  | zero => exact absurd h (by omega)
  | succ m =>
    rw [linspace, List.range_succ_eq_map]
    simp

/-- C2, counterexample: FM demodulation is `np.gradient` of the unwrapped
angle, and `np.gradient` preserves length, so a 1000-sample input demodulates
to 1000 samples, not 999. -/
theorem c2_counterexample :
    (demodulate_signal (List.replicate 1000 1) "FM").length = 1000 ∧
      (1000 : ℕ) ≠ 999 := by
  constructor
  · have h1 : ((List.replicate 1000 (1 : ℝ)).map npAngleDiag).length = 1000 := by
      rw [List.length_map, List.length_replicate]
    have h2 : (unwrap ((List.replicate 1000 (1 : ℝ)).map npAngleDiag)).length = 1000 := by
      rw [unwrap_length, h1]
    have h3 : demodulate_signal (List.replicate 1000 1) "FM"
        = npGradient (unwrap ((List.replicate 1000 (1 : ℝ)).map npAngleDiag)) := rfl
    rw [h3, npGradient_length _ (by rw [h2]; norm_num), h2]
  · norm_num

/-- C2, amended: for every input buffer of at least two samples, the
demodulator's output length equals the input length for both FM and PM (the
derivative `np.gradient` preserves length); in particular a 1000-sample input
yields 1000 samples under both. -/
theorem c2_amended_lengths (x y : ℝ) (l : List ℝ) :
    (demodulate_signal (x :: y :: l) "FM").length = (x :: y :: l).length ∧
    (demodulate_signal (x :: y :: l) "PM").length = (x :: y :: l).length := by
  have hlen : (unwrap ((x :: y :: l).map npAngleDiag)).length = l.length + 2 := by
    rw [unwrap_length, List.length_map]
    simp
  have hFM : demodulate_signal (x :: y :: l) "FM"
      = npGradient (unwrap ((x :: y :: l).map npAngleDiag)) := rfl
  have hPM : demodulate_signal (x :: y :: l) "PM"
      = npGradient (unwrap ((x :: y :: l).map npAngleDiag)) := rfl
  constructor
  · rw [hFM, npGradient_length _ (by rw [hlen]; omega), hlen]
    simp
  · rw [hPM, npGradient_length _ (by rw [hlen]; omega), hlen]
    simp

/-- C3, counterexample: at fc = 0, message [1, 1], t = [0, 1/4], index 1, the
code's FM sample 1 is sin(1/2) > 0, while the claimed phase convention
2π·index·∫message would give sin(π) = 0: the code adds no 2π factor to the
phase term. -/
theorem c3_counterexample :
    modulate_signal 0 [1, 1] [0, 1/4] "FM" 1 ≠ fmClaimFormula 0 [1, 1] [0, 1/4] 1 := by
  intro h
  have h2 : (modulate_signal 0 [1, 1] [0, (1 : ℝ)/4] "FM" 1).getD 1 0
      = (fmClaimFormula 0 [1, 1] [0, (1 : ℝ)/4] 1).getD 1 0 := by rw [h]
  have hL : (modulate_signal 0 [1, 1] [0, (1 : ℝ)/4] "FM" 1).getD 1 0
      = Real.sin (1/2) := by
    simp [modulate_signal, cumsum, cumsumAux]
    norm_num
  have hR : (fmClaimFormula 0 [1, 1] [0, (1 : ℝ)/4] 1).getD 1 0 = 0 := by
    simp [fmClaimFormula, cumsum, cumsumAux]
    rw [show 2 * Real.pi * (((1 : ℝ) + 1) * 4⁻¹) = Real.pi by ring, Real.sin_pi]
  rw [hL, hR] at h2
  have hpos : 0 < Real.sin (1/2) :=
    Real.sin_pos_of_pos_of_lt_pi (by norm_num) (by linarith [Real.pi_gt_three])
  linarith

/-- C3, amended: FM modulation integrates the message as the cumulative sum
scaled by Δt = t[1]-t[0], and the phase term added to the carrier phase is
index·∫message (no 2π factor): sample i equals
sin(2π·fc·t[i] + index·(Σ_{j ≤ i} message[j])·Δt). -/
theorem c3_amended_fm_formula (fc : ℝ) (msg t : List ℝ) (idx : ℝ) :
    modulate_signal fc msg t "FM" idx = fmAmendedFormula fc msg t idx := by
  have hmod : modulate_signal fc msg t "FM" idx
      = List.zipWith (fun ti ii => Real.sin (2 * Real.pi * fc * ti + idx * ii))
          t ((cumsum msg).map (fun x => x * (t.getD 1 0 - t.getD 0 0))) := rfl
  rw [hmod]
  apply List.ext_getElem
  · rw [List.length_zipWith, List.length_map, cumsum_length, fmAmendedFormula,
      List.length_map, List.length_range]
  · intro i h1 h2
    have hmin : i < min t.length msg.length := by
      rw [List.length_zipWith, List.length_map, cumsum_length] at h1
      exact h1
    have hit : i < t.length := lt_of_lt_of_le hmin (min_le_left _ _)
    rw [List.getElem_zipWith, List.getElem_map, cumsum_getElem]
    have hr : (fmAmendedFormula fc msg t idx)[i]
        = Real.sin (2 * Real.pi * fc * (t.getD i 0) +
            idx * ((msg.take (i + 1)).sum * (t.getD 1 0 - t.getD 0 0))) := by
      simp only [fmAmendedFormula]
      rw [List.getElem_map, List.getElem_range]
    rw [hr, List.getD_eq_getElem t 0 hit]

/-- C7, counterexample: from the running state every display-loop tick emits
the same frame built on the fixed axis `t_main`, whose start is 0; two
successive ticks therefore have equal starts, not strictly increasing ones. -/
theorem c7_counterexample :
    loopTick ⟨false⟩ = some t_main ∧ t_main.getD 0 0 = 0 ∧
      ¬ (t_main.getD 0 0 < t_main.getD 0 0) :=
  ⟨rfl, linspace_getD_zero 0 10 10000 (by norm_num), lt_irrefl _⟩

/-- C7, amended: while frozen the display loop draws no new frame (the last
frame is retained); while running each tick redraws the same frame on the
fixed axis `t_main` whose start is 0 (so successive starts are equal, never
strictly increasing); Freeze stops the loop, Run restarts it, and Reset
reruns the script with the session state intact, the next running tick again
using start 0. -/
theorem c7_amended_session (b : Bool) :
    loopTick ⟨b⟩ = (if b then none else some t_main) ∧
    loopTick (freezeAction ⟨b⟩) = none ∧
    loopTick (runAction ⟨b⟩) = some t_main ∧
    resetAction ⟨b⟩ = ⟨b⟩ ∧
    t_main.getD 0 0 = 0 := by
  refine ⟨?_, rfl, rfl, rfl, linspace_getD_zero 0 10 10000 (by norm_num)⟩
  cases b <;> rfl
